import Mathlib

/-!
Verification development for the koa-persist-query middleware.

The middleware resolves GraphQL persisted-query requests: it parses the
request payload from the koa context, derives a fingerprint from the
persisted-query id and the variables, serves the response from an LRU
cache on a hit, and otherwise injects the stored query text, delegates to
the downstream GraphQL executor and writes the response back to the cache.

The embedding below follows the final middleware variant
(`getQueryFromHash`, `parseGraphQLRequest`, `generateRequestHash`,
`cacheAfterExecutionGraphQL`) together with the `LRUCache` wrapper and the
`HttpQueryError` class.  JavaScript runtime values are modelled by the
inductive `JSValue`; the Node `crypto` SHA-256 primitive is modelled by an
executable FIPS 180-4 implementation over byte lists.
-/

namespace KPQ

/-- Model of a dynamically typed JavaScript value as it flows through the
koa context: request bodies, query-string mappings, response bodies and the
fields of a GraphQL payload. -/
inductive JSValue where
  | vundefined : JSValue
  | vnull : JSValue
  | vbool : Bool → JSValue
  | vnum : Int → JSValue
  | vstr : String → JSValue
  | varr : List JSValue → JSValue
  | vobj : List (String × JSValue) → JSValue

/-- JavaScript truthiness: `undefined`, `null`, `false`, `0` and the empty
string are falsy; every object and array is truthy.  (NaN is not
representable in the integer-number model.) -/
def truthy : JSValue → Bool
  | .vundefined => false
  | .vnull => false
  | .vbool b => b
  | .vnum n => n != 0
  | .vstr s => s != ""
  | .varr _ => true
  | .vobj _ => true

/-- lodash `_.isObject`: true exactly for objects and arrays (and
functions, which the model does not represent); false for `null`,
`undefined` and primitives. -/
def isObject : JSValue → Bool
  | .varr _ => true
  | .vobj _ => true
  | _ => false

/-- typeof v === "string". -/
def isString : JSValue → Bool
  | .vstr _ => true
  | _ => false

/-- Property read `v[k]`.  On an object the first binding of the key wins;
on every non-object the model yields `undefined`.  (The middleware only
reads properties of parsed payload objects.) -/
def jsGetProp (v : JSValue) (k : String) : JSValue :=
  match v with
  | .vobj fs => ((fs.find? fun kv => kv.1 == k).map fun kv => kv.2).getD .vundefined
  | _ => .vundefined

/-- Object.keys: own enumerable keys of an object, the index strings of an
array or a string, and `[]` for the remaining primitives. -/
def jsKeys : JSValue → List String
  | .vobj fs => fs.map fun kv => kv.1
  | .varr xs => (List.range xs.length).map toString
  | .vstr s => (List.range s.length).map toString
  | _ => []

/-- JavaScript `a || b`. -/
def jsOr (a b : JSValue) : JSValue := if truthy a then a else b

/-- Strict equality `v === "lit"` against a string literal. -/
def isStrEq (v : JSValue) (s : String) : Bool :=
  match v with
  | .vstr t => t == s
  | _ => false

/-- Rendering of one array element under `Array.prototype.join`: nullish
elements render empty, objects render as their object tag.  The model
renders a nested array as an object tag rather than recursing (JavaScript
recurses); no middleware path ever coerces an array, so the difference is
unobservable in the claims. -/
def jsElemCoerce : JSValue → String
  | .vundefined => ""
  | .vnull => ""
  | .vbool b => cond b "true" "false"
  | .vnum n => toString n
  | .vstr s => s
  | .varr _ => "[object Object]"
  | .vobj _ => "[object Object]"

/-- JavaScript string coercion `String(v)`, as performed by the `+`
operator on a non-string operand.  Arrays coerce through
`Array.prototype.join(",")`. -/
def jsCoerceString : JSValue → String
  | .vundefined => "undefined"
  | .vnull => "null"
  | .vbool b => cond b "true" "false"
  | .vnum n => toString n
  | .vstr s => s
  | .varr xs => String.intercalate "," (xs.map jsElemCoerce)
  | .vobj _ => "[object Object]"

/-- JSON string escaping as performed by `JSON.stringify`: quote,
backslash and the control characters get escaped, everything else is
copied verbatim. -/
def jsonEscapeChar (c : Char) : String :=
  if c == '\x22' then "\\\x22"
  else if c == '\\' then "\\\\"
  else if c == '\x08' then "\\b"
  else if c == '\x0c' then "\\f"
  else if c == '\n' then "\\n"
  else if c == '\r' then "\\r"
  else if c == '\t' then "\\t"
  else if c.toNat < 32 then
    "\\u00" ++ String.mk [(Nat.digitChar (c.toNat / 16)), (Nat.digitChar (c.toNat % 16))]
  else String.mk [c]

/-- Quoted JSON rendering of a string. -/
def jsonQuote (s : String) : String :=
  "\x22" ++ String.join (s.data.map jsonEscapeChar) ++ "\x22"

/-- JSON.stringify.  `undefined` has no JSON rendering: at top level the
call yields the JavaScript value `undefined` (modelled as `none`), inside
an array it renders as `null`, and an object property holding it is
omitted. -/
def jsonStringify : JSValue → Option String
  | .vundefined => none
  | .vnull => some "null"
  | .vbool b => some (cond b "true" "false")
  | .vnum n => some (toString n)
  | .vstr s => some (jsonQuote s)
  | .varr xs =>
      some ("[" ++ String.intercalate ","
        (xs.attach.map fun x => (jsonStringify x.1).getD "null") ++ "]")
  | .vobj fs =>
      some ("\x7b" ++ String.intercalate ","
        (fs.attach.filterMap fun kv =>
          (jsonStringify kv.1.2).map fun s => jsonQuote kv.1.1 ++ ":" ++ s) ++ "\x7d")
termination_by v => sizeOf v
decreasing_by
  · have := List.sizeOf_lt_of_mem x.2
    simp at this ⊢
    omega
  · have h2 := List.sizeOf_lt_of_mem kv.2
    obtain ⟨⟨k, v⟩, hm⟩ := kv
    simp at h2 ⊢
    omega

/-- Hexadecimal digit value of a character, for `\u` escapes. -/
def hexVal (c : Char) : Option Nat :=
  if c.isDigit then some (c.toNat - 48)
  else if 'a' <= c && c <= 'f' then some (c.toNat - 87)
  else if 'A' <= c && c <= 'F' then some (c.toNat - 55)
  else none

/-- Skip JSON whitespace. -/
def jpWs (cs : List Char) : List Char :=
  cs.dropWhile fun c => c == ' ' || c == '\t' || c == '\n' || c == '\r'

/-- Parse the remainder of a JSON string literal (after the opening
quote), decoding the standard escapes.  Fuel-driven so that the recursion
is structural. -/
def jpStrChars : Nat → List Char → Option (List Char × List Char)
  | 0, _ => none
  | _ + 1, [] => none
  | f + 1, c :: cs =>
    if c == '\x22' then some ([], cs)
    else if c == '\\' then
      match cs with
      | [] => none
      | e :: cs2 =>
        let esc : Option (Char × List Char) :=
          if e == '\x22' then some ('\x22', cs2)
          else if e == '\\' then some ('\\', cs2)
          else if e == '/' then some ('/', cs2)
          else if e == 'b' then some ('\x08', cs2)
          else if e == 'f' then some ('\x0c', cs2)
          else if e == 'n' then some ('\n', cs2)
          else if e == 'r' then some ('\r', cs2)
          else if e == 't' then some ('\t', cs2)
          else if e == 'u' then
            match cs2 with
            | h1 :: h2 :: h3 :: h4 :: cs3 =>
              match hexVal h1, hexVal h2, hexVal h3, hexVal h4 with
              | some a, some b, some c3, some d =>
                some (Char.ofNat (((a * 16 + b) * 16 + c3) * 16 + d), cs3)
              | _, _, _, _ => none
            | _ => none
          else none
        match esc with
        | some (ch, rest) => (jpStrChars f rest).map fun r => (ch :: r.1, r.2)
        | none => none
    else (jpStrChars f cs).map fun r => (c :: r.1, r.2)

/-- Parse a JSON integer literal.  The model restricts JSON numbers to the
integer fragment (the middleware never feeds fractional or exponent
literals into `JSON.parse` on any path a claim exercises); other numeric
forms are rejected. -/
def jpDigits (cs : List Char) : Option (Nat × List Char) :=
  let ds := cs.takeWhile Char.isDigit
  let rest := cs.dropWhile Char.isDigit
  if ds.isEmpty then none
  else
    match rest with
    | '.' :: _ => none
    | 'e' :: _ => none
    | 'E' :: _ => none
    | _ => some (ds.foldl (fun a c => a * 10 + (c.toNat - 48)) 0, rest)

/-- Parse a JSON number (optional leading minus). -/
def jpNum (cs : List Char) : Option (JSValue × List Char) :=
  match cs with
  | '-' :: rest => (jpDigits rest).map fun r => (JSValue.vnum (-(Int.ofNat r.1)), r.2)
  | _ => (jpDigits cs).map fun r => (JSValue.vnum (Int.ofNat r.1), r.2)

mutual

/-- Parse one JSON value.  Together with `jpElems` and `jpFields` this is a
fuel-driven recursive-descent model of `JSON.parse`. -/
def jpVal : Nat → List Char → Option (JSValue × List Char)
  | 0, _ => none
  | f + 1, cs =>
    match jpWs cs with
    | 'n' :: 'u' :: 'l' :: 'l' :: rest => some (.vnull, rest)
    | 't' :: 'r' :: 'u' :: 'e' :: rest => some (.vbool true, rest)
    | 'f' :: 'a' :: 'l' :: 's' :: 'e' :: rest => some (.vbool false, rest)
    | '\x22' :: rest => (jpStrChars (rest.length + 1) rest).map fun r => (.vstr (String.mk r.1), r.2)
    | '[' :: rest =>
      (match jpWs rest with
       | ']' :: rest2 => some (.varr [], rest2)
       | _ => (jpElems f (jpWs rest)).map fun r => (.varr r.1, r.2))
    | '\x7b' :: rest =>
      (match jpWs rest with
       | '\x7d' :: rest2 => some (.vobj [], rest2)
       | _ => (jpFields f (jpWs rest)).map fun r => (.vobj r.1, r.2))
    | other => jpNum other

/-- Parse the comma-separated elements of a JSON array up to `]`. -/
def jpElems : Nat → List Char → Option (List JSValue × List Char)
  | 0, _ => none
  | f + 1, cs =>
    match jpVal f cs with
    | none => none
    | some (v, rest) =>
      match jpWs rest with
      | ']' :: rest2 => some ([v], rest2)
      | ',' :: rest2 =>
        (match jpElems f rest2 with
         | some (vs, rest3) => some (v :: vs, rest3)
         | none => none)
      | _ => none

/-- Parse the comma-separated members of a JSON object up to the closing
brace. -/
def jpFields : Nat → List Char → Option (List (String × JSValue) × List Char)
  | 0, _ => none
  | f + 1, cs =>
    match jpWs cs with
    | '\x22' :: rest =>
      (match jpStrChars (rest.length + 1) rest with
       | none => none
       | some (key, rest1) =>
         match jpWs rest1 with
         | ':' :: rest2 =>
           (match jpVal f rest2 with
            | none => none
            | some (v, rest3) =>
              match jpWs rest3 with
              | '\x7d' :: rest4 => some ([(String.mk key, v)], rest4)
              | ',' :: rest4 =>
                (match jpFields f rest4 with
                 | some (fs, rest5) => some ((String.mk key, v) :: fs, rest5)
                 | none => none)
              | _ => none)
         | _ => none)
    | _ => none

end

/-- JSON.parse: parse one value and require that only whitespace remains.
A `none` result models the `SyntaxError` the middleware catches. -/
def jsonParse (s : String) : Option JSValue :=
  match jpVal (2 * s.length + 4) s.data with
  | some (v, rest) => if (jpWs rest).isEmpty then some v else none
  | none => none

/-- Truncation to a 32-bit word. -/
def w32 (n : Nat) : Nat := n % 4294967296

/-- Right rotation of a 32-bit word. -/
def rotr32 (k n : Nat) : Nat := w32 ((n >>> k) ||| (n <<< (32 - k)))

/-- Bitwise complement of a 32-bit word. -/
def not32 (n : Nat) : Nat := n ^^^ 4294967295

def bigSigma0 (x : Nat) : Nat := rotr32 2 x ^^^ rotr32 13 x ^^^ rotr32 22 x

def bigSigma1 (x : Nat) : Nat := rotr32 6 x ^^^ rotr32 11 x ^^^ rotr32 25 x

def smallSigma0 (x : Nat) : Nat := rotr32 7 x ^^^ rotr32 18 x ^^^ (x >>> 3)

def smallSigma1 (x : Nat) : Nat := rotr32 17 x ^^^ rotr32 19 x ^^^ (x >>> 10)

def chFn (e f g : Nat) : Nat := (e &&& f) ^^^ (not32 e &&& g)

def majFn (a b c : Nat) : Nat := (a &&& b) ^^^ (a &&& c) ^^^ (b &&& c)

/-- Working state of the SHA-256 compression function. -/
structure Sha256State where
  a : Nat
  b : Nat
  c : Nat
  d : Nat
  e : Nat
  f : Nat
  g : Nat
  hh : Nat

/-- Round constants of FIPS 180-4. -/
def shaK : List Nat :=
  [1116352408, 1899447441, 3049323471, 3921009573, 961987163,
   1508970993, 2453635748, 2870763221, 3624381080, 310598401,
   607225278, 1426881987, 1925078388, 2162078206, 2614888103,
   3248222580, 3835390401, 4022224774, 264347078, 604807628,
   770255983, 1249150122, 1555081692, 1996064986, 2554220882,
   2821834349, 2952996808, 3210313671, 3336571891, 3584528711,
   113926993, 338241895, 666307205, 773529912, 1294757372,
   1396182291, 1695183700, 1986661051, 2177026350, 2456956037,
   2730485921, 2820302411, 3259730800, 3345764771, 3516065817,
   3600352804, 4094571909, 275423344, 430227734, 506948616,
   659060556, 883997877, 958139571, 1322822218, 1537002063,
   1747873779, 1955562222, 2024104815, 2227730452, 2361852424,
   2428436474, 2756734187, 3204031479, 3329325298]

/-- Initial hash value of FIPS 180-4. -/
def shaInit : Sha256State :=
  ⟨1779033703, 3144134277, 1013904242, 2773480762,
   1359893119, 2600822924, 528734635, 1541459225⟩

/-- Merkle-Damgard padding: a `0x80` byte, zeros, and the 64-bit
big-endian bit length, to a multiple of 64 bytes. -/
def sha256Pad (msg : List Nat) : List Nat :=
  let padZeros := (55 + 64 - msg.length % 64) % 64
  msg ++ 0x80 :: (List.replicate padZeros 0 ++
    (List.range 8).map fun i => ((8 * msg.length) >>> (8 * (7 - i))) % 256)

/-- Split a byte list into 64-byte blocks (fuel-driven). -/
def chunks64Aux : Nat → List Nat → List (List Nat)
  | 0, _ => []
  | _ + 1, [] => []
  | f + 1, l => l.take 64 :: chunks64Aux f (l.drop 64)

def chunks64 (l : List Nat) : List (List Nat) := chunks64Aux l.length l

/-- The sixteen big-endian 32-bit words of a 64-byte block. -/
def blockWords (block : List Nat) : List Nat :=
  (List.range 16).map fun i =>
    ((block.getD (4 * i) 0) <<< 24) + ((block.getD (4 * i + 1) 0) <<< 16) +
      ((block.getD (4 * i + 2) 0) <<< 8) + block.getD (4 * i + 3) 0

/-- Extend sixteen schedule words to sixty-four.  The accumulator is kept
most-recent-first so the recurrence reads off fixed positions. -/
def extendWords (ws : List Nat) : List Nat :=
  let rev := (List.range 48).foldl (fun acc _ =>
    w32 (acc.getD 15 0 + smallSigma0 (acc.getD 14 0) + acc.getD 6 0 +
      smallSigma1 (acc.getD 1 0)) :: acc) ws.reverse
  rev.reverse

/-- One round of the SHA-256 compression function. -/
def shaRound (st : Sha256State) (kw : Nat × Nat) : Sha256State :=
  let t1 := w32 (st.hh + bigSigma1 st.e + chFn st.e st.f st.g + kw.1 + kw.2)
  let t2 := w32 (bigSigma0 st.a + majFn st.a st.b st.c)
  ⟨w32 (t1 + t2), st.a, st.b, st.c, w32 (st.d + t1), st.e, st.f, st.g⟩

/-- Compress one 64-byte block into the running state. -/
def shaBlock (st : Sha256State) (block : List Nat) : Sha256State :=
  let ws := extendWords (blockWords block)
  let r := (shaK.zip ws).foldl shaRound st
  ⟨w32 (st.a + r.a), w32 (st.b + r.b), w32 (st.c + r.c), w32 (st.d + r.d),
   w32 (st.e + r.e), w32 (st.f + r.f), w32 (st.g + r.g), w32 (st.hh + r.hh)⟩

/-- SHA-256 digest (32 bytes) of a byte list. -/
def sha256Bytes (msg : List Nat) : List Nat :=
  let fin := (chunks64 (sha256Pad msg)).foldl shaBlock shaInit
  [fin.a, fin.b, fin.c, fin.d, fin.e, fin.f, fin.g, fin.hh].flatMap fun wd =>
    (List.range 4).map fun i => (wd >>> (8 * (3 - i))) % 256

/-- Lowercase hexadecimal digit. -/
def hexDigitChar (n : Nat) : Char :=
  if n < 10 then Char.ofNat (48 + n) else Char.ofNat (87 + n)

/-- Lowercase hex encoding of a byte list. -/
def bytesToHex (bs : List Nat) : String :=
  String.mk (bs.flatMap fun b => [hexDigitChar (b / 16), hexDigitChar (b % 16)])

/-- UTF-8 encoding of one character. -/
def utf8Char (c : Char) : List Nat :=
  let n := c.toNat
  if n < 128 then [n]
  else if n < 2048 then [192 + n / 64, 128 + n % 64]
  else if n < 65536 then [224 + n / 4096, 128 + (n / 64) % 64, 128 + n % 64]
  else [240 + n / 262144, 128 + (n / 4096) % 64, 128 + (n / 64) % 64, 128 + n % 64]

/-- UTF-8 encoding of a string. -/
def utf8Encode (s : String) : List Nat := s.data.flatMap utf8Char

/-- Model of Node `createHash("sha256").update(s).digest("hex")`: the
lowercase hex encoding of the SHA-256 digest of the UTF-8 bytes of `s`. -/
def sha256Hex (s : String) : String := bytesToHex (sha256Bytes (utf8Encode s))

/-- Model of the HttpQueryError class of src/error.ts. -/
structure HttpQueryError where
  statusCode : Nat
  message : String
  isGraphQLError : Bool
  headers : Option (List (String × String))

/-- Model of the LRUCache wrapper of src/cache.ts around the lru-cache
package: a capacity-bounded association list kept most-recently-used
first.  The time-to-live bound (maxAge, default one hour) would need a
clock and is not modelled; no claim concerns it. -/
structure LRUCache where
  max : Nat
  entries : List (String × JSValue)

/-- Value bound to a key in the entry list. -/
def lruFind (es : List (String × JSValue)) (k : String) : Option JSValue :=
  (es.find? fun e => e.1 == k).map fun e => e.2

/-- Method get of LRUCache: a hit refreshes the recency of the entry. -/
def LRUCache.get (c : LRUCache) (k : String) : Option JSValue × LRUCache :=
  match lruFind c.entries k with
  | some v => (some v, ⟨c.max, (k, v) :: c.entries.filter fun e => e.1 != k⟩)
  | none => (none, c)

/-- Method set of LRUCache: insert at the most-recent position, dropping
any previous binding of the key, then trim to the capacity bound, which
evicts least-recently-used entries. -/
def LRUCache.set (c : LRUCache) (k : String) (v : JSValue) : LRUCache :=
  ⟨c.max, ((k, v) :: c.entries.filter fun e => e.1 != k).take c.max⟩

/-- Method has of LRUCache: pure lookup, recency unchanged. -/
def LRUCache.has (c : LRUCache) (k : String) : Bool :=
  (lruFind c.entries k).isSome

/-- getCache(): the module-level cache instance, built from the default
options max = 100 (and maxAge = one hour, not modelled). -/
def getCache : LRUCache := ⟨100, []⟩

/-- Configuration of the middleware.  A missing path field destructures to
the default route "/graphql". -/
structure PersistCacheConfig where
  path : Option String
  map : List (String × String)

/-- GraphQLRequest extracted from the koa context.  The TypeScript
interface declares strings, but the untyped payload can put any runtime
value into each field, so the model keeps them dynamically typed. -/
structure GraphQLRequest where
  query : JSValue
  operationName : JSValue
  variablesJS : JSValue
  extensions : JSValue
  persistHash : JSValue

/-- Slice of the koa context the middleware touches: the route, the HTTP
method, the body-parser output ctx.request.body, the raw ctx.req.body
(koa-multer fallback), the parsed query string ctx.request.query, and the
outbound response body and content type. -/
structure Ctx where
  path : String
  method : String
  requestBody : JSValue
  reqBody : JSValue
  requestQuery : JSValue
  responseBody : JSValue
  responseType : String

/-- Outcome of one middleware invocation: the final context and cache,
whether the downstream handler ran, and the cache keys looked up and
entries written (recorded so the cache protocol can be stated). -/
structure MWResult where
  ctx : Ctx
  cache : LRUCache
  nextInvoked : Bool
  cacheLookups : List String
  cacheWrites : List (String × JSValue)

/-- generateRequestHash: the fingerprint of a request.  The declared
TypeScript type of queryHashId is string, but the call site passes the raw
id field of the payload, and the JavaScript `+` coerces it to a string; the
model takes the runtime value and applies that coercion.  JSON.stringify
cannot throw on the modelled value type (no cycles, no BigInt), so the
catch branch re-raising HttpQueryError(400) is unreachable here. -/
def generateRequestHash (queryHashId : JSValue) (queryVariables : JSValue) : String :=
  let variableStirng :=
    if !(truthy queryVariables) || !(isObject queryVariables) then ""
    else (jsonStringify queryVariables).getD ""
  sha256Hex (jsCoerceString queryHashId ++ variableStirng)

/-- Payload selected from the context together with the HTTP method. -/
structure PayloadWithMethod where
  query : JSValue
  method : String

/-- parseQueryAndMethod: a POST reads the parsed body (falling back to
ctx.req.body for koa-multer), anything else reads the query string. -/
def parseQueryAndMethod (ctx : Ctx) : PayloadWithMethod :=
  ⟨if ctx.method == "POST" then jsOr ctx.requestBody ctx.reqBody else ctx.requestQuery,
   ctx.method⟩

/-- validateRequestPayload: dispatch on the HTTP method, rejecting an
absent or empty payload (500 for POST, 400 for GET) and any other method
with 405 plus an Allow header. -/
def validateRequestPayload (request : PayloadWithMethod) : Except HttpQueryError JSValue :=
  if request.method == "POST" then
    if !(truthy request.query) || (jsKeys request.query).length == 0 then
      .error ⟨500, "POST body missing. Did you forget use body-parser middleware?", false, none⟩
    else .ok request.query
  else if request.method == "GET" then
    if !(truthy request.query) || (jsKeys request.query).length == 0 then
      .error ⟨400, "GET query missing.", false, none⟩
    else .ok request.query
  else
    .error ⟨405, "Apollo Server supports only GET/POST requests.", false,
      some [("Allow", "GET, POST")]⟩

/-- Handling of a payload field that may arrive as a JSON string (the
extensions and variables extraction blocks share this shape): a string is
JSON-parsed, a parse failure raises HttpQueryError(400) with the given
message, and every non-string value passes through. -/
def parseJSONStringField (v : JSValue) (errmsg : String) : Except HttpQueryError JSValue :=
  match v with
  | .vstr s =>
    (match jsonParse s with
     | some w => .ok w
     | none => .error ⟨400, errmsg, false, none⟩)
  | w => .ok w

/-- Message raised when the query value looks like a pre-parsed AST. -/
def documentKindMessage : String :=
  "GraphQL queries must be strings. It looks like you\x27re sending the " ++
  "internal graphql-js representation of a parsed query in your " ++
  "request instead of a request in the GraphQL query language. You " ++
  "can convert an AST to a string using the `print` function from " ++
  "`graphql`, or use a client like `apollo-client` which converts " ++
  "the internal representation to a string for you."

/-- parseGraphQLRequestFromPayload: extract query, extensions, variables,
operationName and the persist hash (the id field) from the payload.  A
string extensions or variables value is JSON-parsed; a truthy non-string
query is rejected with 400, with a dedicated message when its kind field
is "Document". -/
def parseGraphQLRequestFromPayload (requestParams : JSValue) :
    Except HttpQueryError GraphQLRequest :=
  let queryString := jsGetProp requestParams "query"
  match parseJSONStringField (jsGetProp requestParams "extensions")
      "Extensions are invalid JSON." with
  | .error e => .error e
  | .ok extensions =>
    if truthy queryString && !(isString queryString) then
      if isStrEq (jsGetProp queryString "kind") "Document" then
        .error ⟨400, documentKindMessage, false, none⟩
      else
        .error ⟨400, "GraphQL queries must be strings.", false, none⟩
    else
      let operationName := jsGetProp requestParams "operationName"
      match parseJSONStringField (jsGetProp requestParams "variables")
          "Variables are invalid JSON." with
      | .error e => .error e
      | .ok variablesJS =>
        .ok ⟨queryString, operationName, variablesJS, extensions,
          jsGetProp requestParams "id"⟩

/-- parseGraphQLRequest: the composition
parseGraphQLRequestFromPayload after validateRequestPayload after
parseQueryAndMethod. -/
def parseGraphQLRequest (ctx : Ctx) : Except HttpQueryError GraphQLRequest :=
  (validateRequestPayload (parseQueryAndMethod ctx)).bind parseGraphQLRequestFromPayload

/-- getResponseFromCache: cache.get(key) degraded through `|| undefined`,
so a falsy cached value reads back as undefined.  The cache state after
the recency update is returned alongside. -/
def getResponseFromCache (cache : LRUCache) (key : String) : JSValue × LRUCache :=
  let r := cache.get key
  ((match r.1 with
    | some v => if truthy v then v else .vundefined
    | none => .vundefined), r.2)

/-- cacheAfterExecutionGraphQL: write the outbound body under the request
hash only when the persist hash is truthy and the response content type is
application/json.  The write performed, if any, is returned next to the
new cache state. -/
def cacheAfterExecutionGraphQL (ctx : Ctx) (persistHash : JSValue) (requestHash : String)
    (cache : LRUCache) : LRUCache × List (String × JSValue) :=
  if truthy persistHash && ctx.responseType == "application/json" then
    (cache.set requestHash ctx.responseBody, [(requestHash, ctx.responseBody)])
  else (cache, [])

/-- Update of an association list at a key: the first binding is replaced
in place, a fresh key is appended, matching JavaScript property order. -/
def setField : List (String × JSValue) → String → JSValue → List (String × JSValue)
  | [], k, x => [(k, x)]
  | (k2, v2) :: rest, k, x =>
    if k2 == k then (k, x) :: rest else (k2, v2) :: setField rest k x

/-- Property write `target[k] = x`.  JavaScript would throw a TypeError on
an undefined or null target (a GET request that never went through the
body parser); the model leaves non-objects unchanged, and every claim
about this write constrains the body to be an object. -/
def jsSetProp (v : JSValue) (k : String) (x : JSValue) : JSValue :=
  match v with
  | .vobj fs => .vobj (setField fs k x)
  | other => other

/-- Map read persistMap[persistHash]: the subscript is coerced to a
property key string, and a missing key yields undefined. -/
def persistMapGet (m : List (String × String)) (k : JSValue) : JSValue :=
  match m.find? fun e => e.1 == jsCoerceString k with
  | some e => .vstr e.2
  | none => .vundefined

/-- getQueryFromHash: parse the request, fingerprint it, consult the
cache; on a truthy hit answer from the cache without running the
downstream handler; otherwise overwrite the query field of the body with
the mapped query text, run the handler and conditionally populate the
cache. -/
def getQueryFromHash (persistMap : List (String × String)) (next : Ctx → Ctx) (ctx : Ctx)
    (cache : LRUCache) : Except HttpQueryError MWResult :=
  match parseGraphQLRequest ctx with
  | .error e => .error e
  | .ok req =>
    let requestHash := generateRequestHash req.persistHash req.variablesJS
    let dc := getResponseFromCache cache requestHash
    if truthy dc.1 then
      .ok ⟨{ ctx with responseBody := dc.1 }, dc.2, false, [requestHash], []⟩
    else
      let ctx1 := { ctx with
        requestBody := jsSetProp ctx.requestBody "query" (persistMapGet persistMap req.persistHash) }
      let ctx2 := next ctx1
      let cw := cacheAfterExecutionGraphQL ctx2 req.persistHash requestHash dc.2
      .ok ⟨ctx2, cw.1, true, [requestHash], cw.2⟩

/-- shouldHandleByPath: exact string comparison of route and pattern. -/
def shouldHandleByPath (path : String) (pat : String) : Bool := pat == path

/-- conditionDo: run one of two continuations on a condition. -/
def conditionDo {α : Type} (condition : Bool) (operation elseOperation : Unit → α) : α :=
  if condition then operation () else elseOperation ()

/-- isPersistCacheConfigValid: lodash isObject of the config.  A typed
configuration record is always an object, so validation passes in the
model. -/
def isPersistCacheConfigValid (_config : PersistCacheConfig) : Bool := true

/-- persistCacheGenerate applied to one request: on the configured route
run getQueryFromHash, otherwise hand the context straight to the next
handler.  The module-level getCache() instance is threaded explicitly, and
the result records the externally visible events. -/
def persistCache (config : PersistCacheConfig) (next : Ctx → Ctx) (ctx : Ctx)
    (cache : LRUCache) : Except HttpQueryError MWResult :=
  conditionDo (shouldHandleByPath ctx.path (config.path.getD "/graphql"))
    (fun _ => getQueryFromHash config.map next ctx cache)
    (fun _ => Except.ok ⟨next ctx, cache, true, [], []⟩)


/-- Fingerprint exactly as the specification words it: the lowercase hex
encoding of the SHA-256 digest of the UTF-8 bytes of the persist hash
concatenated with the canonical variable string; the canonical variable
string is empty when the variables value is absent or not a
mapping/object, and is its JSON serialization otherwise.  This definition
exists only to be compared against generateRequestHash. -/
def specFingerprint (persistHash : String) (variablesValue : JSValue) : String :=
  let canonicalVariableString :=
    match variablesValue with
    | .vundefined => ""
    | v => if isObject v then (jsonStringify v).getD "" else ""
  bytesToHex (sha256Bytes (utf8Encode (persistHash ++ canonicalVariableString)))

/-- Successive insertion of key-value pairs into a cache. -/
def insertAll (c : LRUCache) (ps : List (String × JSValue)) : LRUCache :=
  ps.foldl (fun acc p => acc.set p.1 p.2) c

/-- Abbreviation for the statements below: the fingerprint of a parsed
request, as getQueryFromHash computes it. -/
def requestHashOf (req : GraphQLRequest) : String :=
  generateRequestHash req.persistHash req.variablesJS

/-- Abbreviation for the statements below: the context after the query
injection performed on a cache miss. -/
def injectQuery (persistMap : List (String × String)) (req : GraphQLRequest) (ctx : Ctx) : Ctx :=
  { ctx with requestBody := jsSetProp ctx.requestBody "query" (persistMapGet persistMap req.persistHash) }

/-- Concrete fixture for the witnesses: a persisted-query configuration
mapping the id "abc" to a query text. -/
def cfgAbc : PersistCacheConfig := ⟨some "/graphql", [("abc", "hello query")]⟩

/-- Concrete fixture for the witnesses: a POST on the configured route
whose parsed body carries the id "abc". -/
def ctxAbc : Ctx :=
  ⟨"/graphql", "POST", JSValue.vobj [("id", JSValue.vstr "abc")], JSValue.vundefined,
   JSValue.vundefined, JSValue.vundefined, ""⟩

/-- Concrete fixture for the witnesses: the parse of ctxAbc. -/
def reqAbc : GraphQLRequest :=
  ⟨JSValue.vundefined, JSValue.vundefined, JSValue.vundefined, JSValue.vundefined, JSValue.vstr "abc"⟩

/-- Concrete fixture for the witnesses: a downstream executor that fills
in a JSON response. -/
def nextJson : Ctx → Ctx := fun c =>
  { c with responseBody := JSValue.vobj [("data", JSValue.vnull)],
           responseType := "application/json" }

/-- Concrete fixture for the witnesses: a POST on the configured route
whose parsed body has no id field. -/
def ctxNoId : Ctx :=
  ⟨"/graphql", "POST", JSValue.vobj [("foo", JSValue.vnum 1)], JSValue.vundefined,
   JSValue.vundefined, JSValue.vundefined, ""⟩

/-- Concrete fixture for the witnesses: the parse of ctxNoId. -/
def reqNoId : GraphQLRequest :=
  ⟨JSValue.vundefined, JSValue.vundefined, JSValue.vundefined, JSValue.vundefined, JSValue.vundefined⟩

set_option maxRecDepth 100000 in
/-- Sanity check of the SHA-256 model against the FIPS 180-4 test vector
for the empty message. -/
theorem sha256Hex_empty_vector :
    sha256Hex "" = "e3b0c44298fc1c149afbf4c8996fb92427ae41e4649b934ca495991b7852b855" := by
  decide

set_option maxRecDepth 100000 in
/-- Sanity check of the SHA-256 model against the FIPS 180-4 test vector
for the message "abc". -/
theorem sha256Hex_abc_vector :
    sha256Hex "abc" = "ba7816bf8f01cfea414140de5dae2223b00361a396177a9cb410ff61f20015ad" := by
  decide

/-- Claim C1: for every persistHash string and every variables value, the
fingerprint returned by generateRequestHash equals the lowercase hex
encoding of the SHA-256 digest of the UTF-8 bytes of persistHash
concatenated with the canonical variable string, where the canonical
variable string is empty when variables is absent or not a mapping/object
and is the JSON serialization of variables otherwise. -/
theorem generateRequestHash_matches_spec (persistHash : String) (variablesValue : JSValue) :
    generateRequestHash (JSValue.vstr persistHash) variablesValue =
      specFingerprint persistHash variablesValue := by
  unfold generateRequestHash specFingerprint
  cases variablesValue <;>
    simp only [truthy, isObject, jsCoerceString, Bool.not_false, Bool.not_true,
      Bool.or_true, Bool.or_false, Bool.false_or, Bool.true_or] <;> rfl

/-- Claim C2: the fingerprint function is deterministic (and, as a pure
function of its arguments in this embedding, side-effect free): two calls
of generateRequestHash on the same (persistHash, variables) pair yield
identical output. -/
theorem generateRequestHash_deterministic (p1 p2 v1 v2 : JSValue)
    (hp : p1 = p2) (hv : v1 = v2) :
    generateRequestHash p1 v1 = generateRequestHash p2 v2 := by
  rw [hp, hv]

/-- Witness for generateRequestHash_deterministic at a concrete pair. -/
theorem generateRequestHash_deterministic_witness :
    generateRequestHash (JSValue.vstr "abc123") JSValue.vundefined =
      generateRequestHash (JSValue.vstr "abc123") JSValue.vundefined :=
  generateRequestHash_deterministic _ _ _ _ rfl rfl

/-- Helper: on the configured route the middleware runs getQueryFromHash. -/
theorem persistCache_on_path (config : PersistCacheConfig) (next : Ctx → Ctx)
    (ctx : Ctx) (cache : LRUCache) (hpath : ctx.path = config.path.getD "/graphql") :
    persistCache config next ctx cache = getQueryFromHash config.map next ctx cache := by
  simp [persistCache, conditionDo, shouldHandleByPath, hpath]

/-- Helper: shape of a run whose parse succeeded and whose fingerprint got
a truthy cache hit. -/
theorem getQueryFromHash_hit_eq (persistMap : List (String × String)) (next : Ctx → Ctx)
    (ctx : Ctx) (cache : LRUCache) (req : GraphQLRequest)
    (hparse : parseGraphQLRequest ctx = Except.ok req)
    (hhit : truthy (getResponseFromCache cache (requestHashOf req)).1 = true) :
    getQueryFromHash persistMap next ctx cache = Except.ok
      ⟨{ ctx with responseBody := (getResponseFromCache cache (requestHashOf req)).1 },
       (getResponseFromCache cache (requestHashOf req)).2,
       false, [requestHashOf req], []⟩ := by
  simp only [requestHashOf] at hhit
  simp [getQueryFromHash, hparse, hhit, requestHashOf]

/-- Helper: shape of a run whose parse succeeded and whose fingerprint
missed the cache (or hit a falsy entry). -/
theorem getQueryFromHash_miss_eq (persistMap : List (String × String)) (next : Ctx → Ctx)
    (ctx : Ctx) (cache : LRUCache) (req : GraphQLRequest)
    (hparse : parseGraphQLRequest ctx = Except.ok req)
    (hmiss : truthy (getResponseFromCache cache (requestHashOf req)).1 = false) :
    getQueryFromHash persistMap next ctx cache = Except.ok
      ⟨next (injectQuery persistMap req ctx),
       (cacheAfterExecutionGraphQL (next (injectQuery persistMap req ctx)) req.persistHash
          (requestHashOf req) (getResponseFromCache cache (requestHashOf req)).2).1,
       true, [requestHashOf req],
       (cacheAfterExecutionGraphQL (next (injectQuery persistMap req ctx)) req.persistHash
          (requestHashOf req) (getResponseFromCache cache (requestHashOf req)).2).2⟩ := by
  simp only [requestHashOf] at hmiss
  simp [getQueryFromHash, hparse, hmiss, requestHashOf, injectQuery]

/-- Claim C4: on the configured path, when the fingerprint hits the cache
with a truthy value the middleware sets the outbound response body to the
cached value, never invokes the next handler, and writes nothing to the
cache (the cache only changes by the recency refresh of the hit entry). -/
theorem cache_hit_short_circuits (config : PersistCacheConfig) (next : Ctx → Ctx)
    (ctx : Ctx) (cache : LRUCache) (req : GraphQLRequest) (data : JSValue)
    (hpath : ctx.path = config.path.getD "/graphql")
    (hparse : parseGraphQLRequest ctx = Except.ok req)
    (hfind : lruFind cache.entries (requestHashOf req) = some data)
    (htruthy : truthy data = true) :
    persistCache config next ctx cache = Except.ok
      ⟨{ ctx with responseBody := data },
       ⟨cache.max, (requestHashOf req, data) ::
          cache.entries.filter fun e => e.1 != requestHashOf req⟩,
       false, [requestHashOf req], []⟩ := by
  have hget : getResponseFromCache cache (requestHashOf req) =
      (data, ⟨cache.max, (requestHashOf req, data) ::
        cache.entries.filter fun e => e.1 != requestHashOf req⟩) := by
    simp [getResponseFromCache, LRUCache.get, hfind, htruthy]
  have hh : truthy (getResponseFromCache cache (requestHashOf req)).1 = true := by
    rw [hget]; exact htruthy
  rw [persistCache_on_path config next ctx cache hpath,
    getQueryFromHash_hit_eq config.map next ctx cache req hparse hh, hget]

/-- Witness for cache_hit_short_circuits at a concrete request whose
fingerprint is cached. -/
theorem cache_hit_short_circuits_witness :
    persistCache cfgAbc id ctxAbc
        ⟨100, [(requestHashOf reqAbc, JSValue.vobj [("cached", JSValue.vnull)])]⟩ =
      Except.ok
        ⟨{ ctxAbc with responseBody := JSValue.vobj [("cached", JSValue.vnull)] },
         ⟨100, (requestHashOf reqAbc, JSValue.vobj [("cached", JSValue.vnull)]) ::
            List.filter (fun e => e.1 != requestHashOf reqAbc)
              [(requestHashOf reqAbc, JSValue.vobj [("cached", JSValue.vnull)])]⟩,
         false, [requestHashOf reqAbc], []⟩ :=
  cache_hit_short_circuits cfgAbc id ctxAbc _ reqAbc _ rfl rfl (by simp [lruFind]) rfl

/-- Claim C9: a cached value that is falsy (for example the empty string)
reads back as undefined through getResponseFromCache, so the lookup treats
the key as absent: the executor is invoked, and under the usual populate
conditions the entry is rewritten. -/
theorem falsy_cached_value_treated_as_miss (config : PersistCacheConfig) (next : Ctx → Ctx)
    (ctx : Ctx) (cache : LRUCache) (req : GraphQLRequest) (data : JSValue)
    (hpath : ctx.path = config.path.getD "/graphql")
    (hparse : parseGraphQLRequest ctx = Except.ok req)
    (hfind : lruFind cache.entries (requestHashOf req) = some data)
    (hfalsy : truthy data = false) :
    (getResponseFromCache cache (requestHashOf req)).1 = JSValue.vundefined ∧
    (persistCache config next ctx cache).map (fun r => r.nextInvoked) = Except.ok true ∧
    (truthy req.persistHash = true →
      (next (injectQuery config.map req ctx)).responseType = "application/json" →
      (persistCache config next ctx cache).map (fun r => r.cacheWrites) =
        Except.ok [(requestHashOf req, (next (injectQuery config.map req ctx)).responseBody)]) := by
  have h1 : (getResponseFromCache cache (requestHashOf req)).1 = JSValue.vundefined := by
    simp [getResponseFromCache, LRUCache.get, hfind, hfalsy]
  have hmiss : truthy (getResponseFromCache cache (requestHashOf req)).1 = false := by
    rw [h1]; rfl
  refine ⟨h1, ?_, ?_⟩
  · rw [persistCache_on_path config next ctx cache hpath,
      getQueryFromHash_miss_eq config.map next ctx cache req hparse hmiss]
    rfl
  · intro hph hjson
    rw [persistCache_on_path config next ctx cache hpath,
      getQueryFromHash_miss_eq config.map next ctx cache req hparse hmiss]
    simp [Except.map, cacheAfterExecutionGraphQL, hph, hjson]

/-- Witness for falsy_cached_value_treated_as_miss: the fingerprint of the
request is cached with the empty string as value. -/
theorem falsy_cached_value_treated_as_miss_witness :
    (getResponseFromCache ⟨100, [(requestHashOf reqAbc, JSValue.vstr "")]⟩
      (requestHashOf reqAbc)).1 = JSValue.vundefined ∧
    (persistCache cfgAbc nextJson ctxAbc
      ⟨100, [(requestHashOf reqAbc, JSValue.vstr "")]⟩).map (fun r => r.nextInvoked) =
      Except.ok true ∧
    (truthy reqAbc.persistHash = true →
      (nextJson (injectQuery cfgAbc.map reqAbc ctxAbc)).responseType = "application/json" →
      (persistCache cfgAbc nextJson ctxAbc
        ⟨100, [(requestHashOf reqAbc, JSValue.vstr "")]⟩).map (fun r => r.cacheWrites) =
        Except.ok [(requestHashOf reqAbc,
          (nextJson (injectQuery cfgAbc.map reqAbc ctxAbc)).responseBody)]) :=
  falsy_cached_value_treated_as_miss cfgAbc nextJson ctxAbc _ reqAbc (JSValue.vstr "")
    rfl rfl (by simp [lruFind]) rfl

/-- Helper: looking up the key written by setField yields the new pair. -/
theorem find_setField (fs : List (String × JSValue)) (k : String) (x : JSValue) :
    (setField fs k x).find? (fun kv => kv.1 == k) = some (k, x) := by
  induction fs with
  | nil => simp [setField]
  | cons hd tl ih =>
    obtain ⟨k2, v2⟩ := hd
    by_cases hk : k2 = k
    · subst hk
      simp [setField]
    · simp [setField, hk, ih]

/-- Helper: reading the query property after the overwrite yields the
written value. -/
theorem jsGetProp_setField_query (fs : List (String × JSValue)) (x : JSValue) :
    jsGetProp (JSValue.vobj (setField fs "query" x)) "query" = x := by
  simp [jsGetProp, find_setField]

/-- Claim C10: on every cache miss on the configured path the middleware
overwrites the query field of the request body with the persist-map lookup
before delegating to the next handler, and when the lookup misses (in
particular whenever the id is absent, so that the subscript coerces to the
string "undefined") the query field ends up holding undefined. -/
theorem cache_miss_overwrites_query (config : PersistCacheConfig) (next : Ctx → Ctx)
    (ctx : Ctx) (cache : LRUCache) (req : GraphQLRequest) (fs : List (String × JSValue))
    (hpath : ctx.path = config.path.getD "/graphql")
    (hparse : parseGraphQLRequest ctx = Except.ok req)
    (hmiss : truthy (getResponseFromCache cache (requestHashOf req)).1 = false)
    (hbody : ctx.requestBody = JSValue.vobj fs) :
    (persistCache config next ctx cache).map (fun r => (r.ctx, r.nextInvoked)) =
      Except.ok (next (injectQuery config.map req ctx), true) ∧
    (injectQuery config.map req ctx).requestBody =
      JSValue.vobj (setField fs "query" (persistMapGet config.map req.persistHash)) ∧
    jsGetProp (injectQuery config.map req ctx).requestBody "query" =
      persistMapGet config.map req.persistHash ∧
    ((config.map.find? fun e => e.1 == jsCoerceString req.persistHash) = none →
      persistMapGet config.map req.persistHash = JSValue.vundefined) := by
  have hb : (injectQuery config.map req ctx).requestBody =
      JSValue.vobj (setField fs "query" (persistMapGet config.map req.persistHash)) := by
    simp [injectQuery, hbody, jsSetProp]
  refine ⟨?_, hb, ?_, ?_⟩
  · rw [persistCache_on_path config next ctx cache hpath,
      getQueryFromHash_miss_eq config.map next ctx cache req hparse hmiss]
    rfl
  · rw [hb]
    exact jsGetProp_setField_query fs (persistMapGet config.map req.persistHash)
  · intro hnone
    simp [persistMapGet, hnone]

/-- Witness for cache_miss_overwrites_query: a request without an id, so
the map lookup misses and undefined lands in the query field. -/
theorem cache_miss_overwrites_query_witness :
    (persistCache cfgAbc nextJson ctxNoId ⟨100, []⟩).map (fun r => (r.ctx, r.nextInvoked)) =
      Except.ok (nextJson (injectQuery cfgAbc.map reqNoId ctxNoId), true) ∧
    (injectQuery cfgAbc.map reqNoId ctxNoId).requestBody =
      JSValue.vobj (setField [("foo", JSValue.vnum 1)] "query"
        (persistMapGet cfgAbc.map reqNoId.persistHash)) ∧
    jsGetProp (injectQuery cfgAbc.map reqNoId ctxNoId).requestBody "query" =
      persistMapGet cfgAbc.map reqNoId.persistHash ∧
    ((cfgAbc.map.find? fun e => e.1 == jsCoerceString reqNoId.persistHash) = none →
      persistMapGet cfgAbc.map reqNoId.persistHash = JSValue.vundefined) :=
  cache_miss_overwrites_query cfgAbc nextJson ctxNoId ⟨100, []⟩ reqNoId
    [("foo", JSValue.vnum 1)] rfl rfl rfl rfl

/-- Counterexample to claim C3 as stated: on the configured path, a
request whose payload has no id field does NOT skip caching — the
middleware still performs exactly one cache lookup (with the fingerprint
of the undefined hash) and still mutates the request before delegating (a
query property holding undefined is added to the body). -/
theorem no_persistHash_claim_counterexample :
    (persistCache cfgAbc nextJson ctxNoId ⟨100, []⟩).map
      (fun r => (r.cacheLookups.length, r.ctx.requestBody)) =
      Except.ok (1, JSValue.vobj [("foo", JSValue.vnum 1), ("query", JSValue.vundefined)]) := by
  rfl

/-- Amended claim C3: when the id field is absent the middleware still
computes a fingerprint (the undefined persist hash coerces to the string
"undefined" inside generateRequestHash) and performs exactly one cache
lookup with it, and still rewrites the body on a miss; what does hold is
that the cache is never populated afterwards and that the executor is
invoked exactly when that lookup produces nothing truthy. -/
theorem no_persistHash_pipeline_behavior (config : PersistCacheConfig) (next : Ctx → Ctx)
    (ctx : Ctx) (cache : LRUCache) (req : GraphQLRequest)
    (hpath : ctx.path = config.path.getD "/graphql")
    (hparse : parseGraphQLRequest ctx = Except.ok req)
    (hnohash : req.persistHash = JSValue.vundefined) :
    (persistCache config next ctx cache).map (fun r => (r.cacheLookups, r.cacheWrites)) =
      Except.ok ([requestHashOf req], []) ∧
    (persistCache config next ctx cache).map (fun r => r.nextInvoked) =
      Except.ok (!truthy (getResponseFromCache cache (requestHashOf req)).1) := by
  rw [persistCache_on_path config next ctx cache hpath]
  cases htr : truthy (getResponseFromCache cache (requestHashOf req)).1
  · rw [getQueryFromHash_miss_eq config.map next ctx cache req hparse htr]
    refine ⟨?_, by simp [Except.map]⟩
    simp [Except.map, cacheAfterExecutionGraphQL, hnohash, truthy]
  · rw [getQueryFromHash_hit_eq config.map next ctx cache req hparse htr]
    exact ⟨by simp [Except.map], by simp [Except.map]⟩

/-- Witness for no_persistHash_pipeline_behavior at the concrete request
without an id. -/
theorem no_persistHash_pipeline_behavior_witness :
    (persistCache cfgAbc nextJson ctxNoId ⟨100, []⟩).map
      (fun r => (r.cacheLookups, r.cacheWrites)) =
      Except.ok ([requestHashOf reqNoId], []) ∧
    (persistCache cfgAbc nextJson ctxNoId ⟨100, []⟩).map (fun r => r.nextInvoked) =
      Except.ok (!truthy (getResponseFromCache ⟨100, []⟩ (requestHashOf reqNoId)).1) :=
  no_persistHash_pipeline_behavior cfgAbc nextJson ctxNoId ⟨100, []⟩ reqNoId rfl rfl rfl

/-- Counterexample to claim C5 as stated: a payload whose id field is
present but empty ("") yields a request with persistHash present, and the
outbound response is application/json, yet the cache is NOT written
(JavaScript truthiness, not presence, guards the populate step). -/
theorem present_empty_persistHash_not_cached :
    (persistCache cfgAbc nextJson
        ⟨"/graphql", "POST", JSValue.vobj [("id", JSValue.vstr "")], JSValue.vundefined,
          JSValue.vundefined, JSValue.vundefined, ""⟩ ⟨100, []⟩).map
      (fun r => (r.cacheWrites, r.ctx.responseType, r.nextInvoked)) =
      Except.ok ([], "application/json", true) := by
  rfl

/-- Amended claim C5: on the post-execution path the cache is written if
and only if the persist hash is truthy (present and non-empty) and the
outbound content type is exactly application/json; the write, when it
happens, is the pair (fingerprint, outbound body). -/
theorem cache_populate_iff_truthy_hash_and_json (config : PersistCacheConfig)
    (next : Ctx → Ctx) (ctx : Ctx) (cache : LRUCache) (req : GraphQLRequest)
    (hpath : ctx.path = config.path.getD "/graphql")
    (hparse : parseGraphQLRequest ctx = Except.ok req)
    (hmiss : truthy (getResponseFromCache cache (requestHashOf req)).1 = false) :
    (persistCache config next ctx cache).map (fun r => r.cacheWrites) =
      Except.ok (if truthy req.persistHash &&
          ((next (injectQuery config.map req ctx)).responseType == "application/json")
        then [(requestHashOf req, (next (injectQuery config.map req ctx)).responseBody)]
        else []) := by
  rw [persistCache_on_path config next ctx cache hpath,
    getQueryFromHash_miss_eq config.map next ctx cache req hparse hmiss]
  simp [Except.map, cacheAfterExecutionGraphQL]
  by_cases hc : truthy req.persistHash = true ∧
      (next (injectQuery config.map req ctx)).responseType = "application/json"
  · simp [hc]
  · simp [hc]

/-- Witness for cache_populate_iff_truthy_hash_and_json at the concrete
request with id "abc" and a JSON executor: the cache is written. -/
theorem cache_populate_iff_truthy_hash_and_json_witness :
    (persistCache cfgAbc nextJson ctxAbc ⟨100, []⟩).map (fun r => r.cacheWrites) =
      Except.ok (if truthy reqAbc.persistHash &&
          ((nextJson (injectQuery cfgAbc.map reqAbc ctxAbc)).responseType == "application/json")
        then [(requestHashOf reqAbc, (nextJson (injectQuery cfgAbc.map reqAbc ctxAbc)).responseBody)]
        else []) :=
  cache_populate_iff_truthy_hash_and_json cfgAbc nextJson ctxAbc ⟨100, []⟩ reqAbc rfl rfl rfl

/-- Helper: a non-string payload field passes through the JSON-string
handling untouched. -/
theorem parseJSONStringField_not_string (v : JSValue) (errmsg : String)
    (hv : isString v = false) :
    parseJSONStringField v errmsg = Except.ok v := by
  cases v <;> simp_all [isString, parseJSONStringField]

/-- Claim C6: request normalization dispatches on the HTTP method: a GET
request with an absent or empty query-string mapping fails with
HttpQueryError of status 400; a POST request with an absent or empty body
fails with HttpQueryError of status 500; any other method fails with
HttpQueryError of status 405 carrying an Allow header naming GET and
POST. -/
theorem method_dispatch_errors (ctx : Ctx) :
    (ctx.method = "GET" →
      (truthy ctx.requestQuery = false ∨ jsKeys ctx.requestQuery = []) →
      parseGraphQLRequest ctx = Except.error ⟨400, "GET query missing.", false, none⟩) ∧
    (ctx.method = "POST" → ctx.reqBody = JSValue.vundefined →
      (truthy ctx.requestBody = false ∨ jsKeys ctx.requestBody = []) →
      parseGraphQLRequest ctx = Except.error
        ⟨500, "POST body missing. Did you forget use body-parser middleware?", false, none⟩) ∧
    (ctx.method ≠ "GET" → ctx.method ≠ "POST" →
      parseGraphQLRequest ctx = Except.error
        ⟨405, "Apollo Server supports only GET/POST requests.", false,
          some [("Allow", "GET, POST")]⟩) := by
  refine ⟨?_, ?_, ?_⟩
  · intro hm hq
    rcases hq with h | h
    · simp [parseGraphQLRequest, parseQueryAndMethod, validateRequestPayload, hm, h, Except.bind]
    · simp [parseGraphQLRequest, parseQueryAndMethod, validateRequestPayload, hm, h, Except.bind]
  · intro hm hraw hq
    have hval : ∀ payload : JSValue, parseQueryAndMethod ctx = ⟨payload, ctx.method⟩ →
        (!(truthy payload) || (jsKeys payload).length == 0) = true →
        parseGraphQLRequest ctx = Except.error
          ⟨500, "POST body missing. Did you forget use body-parser middleware?", false,
            none⟩ := by
      intro payload hpay hcond
      unfold parseGraphQLRequest
      rw [hpay]
      simp [validateRequestPayload, hm, hcond, Except.bind]
    rcases hq with h | h
    · refine hval JSValue.vundefined ?_ (by rfl)
      simp [parseQueryAndMethod, hm, jsOr, h, hraw]
    · by_cases htr : truthy ctx.requestBody = true
      · refine hval ctx.requestBody ?_ ?_
        · simp [parseQueryAndMethod, hm, jsOr, htr]
        · simp [htr, h]
      · simp only [Bool.not_eq_true] at htr
        refine hval JSValue.vundefined ?_ (by rfl)
        simp [parseQueryAndMethod, hm, jsOr, htr, hraw]
  · intro h1 h2
    simp [parseGraphQLRequest, parseQueryAndMethod, validateRequestPayload, h1, h2, Except.bind]

/-- Witness for method_dispatch_errors: a GET with no query mapping, a
POST with no body, and a PUT. -/
theorem method_dispatch_errors_witness :
    parseGraphQLRequest ⟨"/graphql", "GET", JSValue.vundefined, JSValue.vundefined, JSValue.vundefined,
        JSValue.vundefined, ""⟩ =
      Except.error ⟨400, "GET query missing.", false, none⟩ ∧
    parseGraphQLRequest ⟨"/graphql", "POST", JSValue.vundefined, JSValue.vundefined, JSValue.vundefined,
        JSValue.vundefined, ""⟩ =
      Except.error ⟨500, "POST body missing. Did you forget use body-parser middleware?",
        false, none⟩ ∧
    parseGraphQLRequest ⟨"/graphql", "PUT", JSValue.vobj [("id", JSValue.vstr "abc")],
        JSValue.vundefined, JSValue.vundefined, JSValue.vundefined, ""⟩ =
      Except.error ⟨405, "Apollo Server supports only GET/POST requests.", false,
        some [("Allow", "GET, POST")]⟩ :=
  ⟨(method_dispatch_errors _).1 rfl (Or.inl rfl),
   (method_dispatch_errors _).2.1 rfl rfl (Or.inl rfl),
   (method_dispatch_errors _).2.2 (by decide) (by decide)⟩

/-- Counterexample to claim C8 as stated: a payload whose query field is
present but falsy (here the number 0) and not a string is NOT rejected
with status 400 — normalization succeeds and passes the non-string value
through, because the code guards the check with JavaScript truthiness
rather than presence. -/
theorem falsy_nonstring_query_accepted :
    parseGraphQLRequestFromPayload (JSValue.vobj [("query", JSValue.vnum 0)]) =
      Except.ok ⟨JSValue.vnum 0, JSValue.vundefined, JSValue.vundefined, JSValue.vundefined,
        JSValue.vundefined⟩ := by
  rfl

/-- Amended claim C8: a payload whose query field is truthy and not a
string is rejected with HttpQueryError of status 400 (provided the
extensions field is not a string, whose failing JSON parse would otherwise
take precedence); when the query value carries a kind field equal to
"Document" the error message is the dedicated stringify-your-query
message, otherwise the generic one. -/
theorem truthy_nonstring_query_rejected (payload : JSValue)
    (hext : isString (jsGetProp payload "extensions") = false)
    (hq : truthy (jsGetProp payload "query") = true)
    (hqs : isString (jsGetProp payload "query") = false) :
    parseGraphQLRequestFromPayload payload = Except.error
      ⟨400,
       if isStrEq (jsGetProp (jsGetProp payload "query") "kind") "Document" then
         documentKindMessage
       else "GraphQL queries must be strings.",
       false, none⟩ := by
  unfold parseGraphQLRequestFromPayload
  rw [parseJSONStringField_not_string _ _ hext]
  cases hkind : isStrEq (jsGetProp (jsGetProp payload "query") "kind") "Document" <;>
    simp [hq, hqs, hkind]

/-- Witness for truthy_nonstring_query_rejected: one payload carrying a
pre-parsed AST shape and one carrying an array. -/
theorem truthy_nonstring_query_rejected_witness :
    parseGraphQLRequestFromPayload
        (JSValue.vobj [("query", JSValue.vobj [("kind", JSValue.vstr "Document")])]) =
      Except.error ⟨400,
        if isStrEq (jsGetProp (jsGetProp
            (JSValue.vobj [("query", JSValue.vobj [("kind", JSValue.vstr "Document")])])
            "query") "kind") "Document" then documentKindMessage
        else "GraphQL queries must be strings.", false, none⟩ ∧
    parseGraphQLRequestFromPayload (JSValue.vobj [("query", JSValue.varr [])]) =
      Except.error ⟨400,
        if isStrEq (jsGetProp (jsGetProp (JSValue.vobj [("query", JSValue.varr [])])
            "query") "kind") "Document" then documentKindMessage
        else "GraphQL queries must be strings.", false, none⟩ :=
  ⟨truthy_nonstring_query_rejected _ rfl rfl rfl,
   truthy_nonstring_query_rejected _ rfl rfl rfl⟩

/-- Helper: truncating the tail before appending does not change a
truncation of the whole. -/
theorem take_append_take {α : Type} (l m : List α) (n : Nat) :
    (l ++ m.take n).take n = (l ++ m).take n := by
  rw [List.take_append_eq_append_take, List.take_append_eq_append_take,
    List.take_take]
  congr 1
  exact congrArg m.take (Nat.min_eq_left (Nat.sub_le n l.length))

/-- Helper: inserting pairwise-fresh keys into a bounded cache leaves the
reversed insertion order truncated to the capacity. -/
theorem insertAll_fresh_entries (ps : List (String × JSValue)) :
    ∀ c : LRUCache, (ps.map Prod.fst).Nodup →
    (∀ p ∈ ps, ∀ e ∈ c.entries, (e.1 == p.1) = false) →
    c.entries.length ≤ c.max →
    (insertAll c ps).entries = (ps.reverse ++ c.entries).take c.max ∧
      (insertAll c ps).max = c.max := by
  induction ps with
  | nil =>
    intro c _ _ hlen
    refine ⟨?_, rfl⟩
    show c.entries = (([] : List (String × JSValue)).reverse ++ c.entries).take c.max
    simp only [List.reverse_nil, List.nil_append]
    exact (List.take_of_length_le hlen).symm
  | cons p ps ih =>
    intro c hnodup hfresh hlen
    have hfilter : c.entries.filter (fun e => e.1 != p.1) = c.entries := by
      refine List.filter_eq_self.mpr fun e he => ?_
      have := hfresh p (List.mem_cons_self p ps) e he
      simp [bne, this]
    have hset : (c.set p.1 p.2).entries = (p :: c.entries).take c.max := by
      simp [LRUCache.set, hfilter]
    have hsetmax : (c.set p.1 p.2).max = c.max := rfl
    have hnodup2 : (ps.map Prod.fst).Nodup := (List.nodup_cons.mp hnodup).2
    have hnotin : p.1 ∉ ps.map Prod.fst := (List.nodup_cons.mp hnodup).1
    have hfresh2 : ∀ q ∈ ps, ∀ e ∈ (c.set p.1 p.2).entries, (e.1 == q.1) = false := by
      intro q hq e he
      rw [hset] at he
      have he2 : e ∈ p :: c.entries := List.mem_of_mem_take he
      rcases List.mem_cons.mp he2 with he3 | he3
      · subst he3
        simp only [beq_eq_false_iff_ne, ne_eq]
        intro heq
        exact hnotin (heq ▸ List.mem_map_of_mem Prod.fst hq)
      · exact hfresh q (List.mem_cons_of_mem p hq) e he3
    have hlen2 : (c.set p.1 p.2).entries.length ≤ (c.set p.1 p.2).max := by
      rw [hset, hsetmax]
      exact List.length_take_le c.max (p :: c.entries)
    have hstep : insertAll c (p :: ps) = insertAll (c.set p.1 p.2) ps := rfl
    obtain ⟨hent, hmax⟩ := ih (c.set p.1 p.2) hnodup2 hfresh2 hlen2
    rw [hstep, hent, hmax, hsetmax, hset]
    refine ⟨?_, rfl⟩
    rw [take_append_take]
    simp [List.append_assoc]

/-- Claim C7: the response cache holds at most its capacity (the default
getCache instance has capacity 100): inserting capacity + 1
pairwise-distinct keys into an empty cache of capacity c leaves exactly c
entries, and the entry evicted is the least-recently-used one — the first
key inserted is gone while every later key is still present. -/
theorem lru_capacity_eviction (c : Nat) (p0 : String × JSValue)
    (rest : List (String × JSValue))
    (_hc : 0 < c)
    (hnodup : ((p0 :: rest).map Prod.fst).Nodup)
    (hlen : rest.length = c) :
    getCache.max = 100 ∧
    (insertAll ⟨c, []⟩ (p0 :: rest)).entries.length = c ∧
    (insertAll ⟨c, []⟩ (p0 :: rest)).has p0.1 = false ∧
    ∀ p ∈ rest, (insertAll ⟨c, []⟩ (p0 :: rest)).has p.1 = true := by
  obtain ⟨hent, hmax⟩ := insertAll_fresh_entries (p0 :: rest) ⟨c, []⟩ hnodup
    (by simp) (by simp)
  have hrev : (insertAll ⟨c, []⟩ (p0 :: rest)).entries = rest.reverse := by
    rw [hent]
    simp only [List.reverse_cons, List.append_nil]
    calc (rest.reverse ++ [p0]).take c
        = (rest.reverse ++ [p0]).take rest.reverse.length := by
          rw [List.length_reverse, hlen]
      _ = rest.reverse := List.take_left rest.reverse [p0]
  have hnotin : p0.1 ∉ rest.map Prod.fst := (List.nodup_cons.mp hnodup).1
  refine ⟨rfl, ?_, ?_, ?_⟩
  · rw [hrev, List.length_reverse, hlen]
  · unfold LRUCache.has lruFind
    rw [hrev]
    have hfind : List.find? (fun e => e.1 == p0.1) rest.reverse = none := by
      rw [List.find?_eq_none]
      intro x hx
      simp only [beq_iff_eq]
      intro heq
      exact hnotin (heq ▸ List.mem_map_of_mem Prod.fst (List.mem_reverse.mp hx))
    rw [hfind]
    rfl
  · intro q hq
    unfold LRUCache.has lruFind
    rw [hrev]
    cases hfq : List.find? (fun e => e.1 == q.1) rest.reverse with
    | some e => simp
    | none =>
      exfalso
      rw [List.find?_eq_none] at hfq
      exact hfq q (List.mem_reverse.mpr hq) (by simp)

/-- Witness for lru_capacity_eviction: three distinct keys into a cache of
capacity two evict exactly the first key. -/
theorem lru_capacity_eviction_witness :
    getCache.max = 100 ∧
    (insertAll ⟨2, []⟩
      [("a", JSValue.vnull), ("b", JSValue.vnull), ("c", JSValue.vnull)]).entries.length = 2 ∧
    (insertAll ⟨2, []⟩
      [("a", JSValue.vnull), ("b", JSValue.vnull), ("c", JSValue.vnull)]).has "a" = false ∧
    ∀ p ∈ [("b", JSValue.vnull), ("c", JSValue.vnull)],
      (insertAll ⟨2, []⟩
        [("a", JSValue.vnull), ("b", JSValue.vnull), ("c", JSValue.vnull)]).has p.1 = true :=
  lru_capacity_eviction 2 ("a", JSValue.vnull) [("b", JSValue.vnull), ("c", JSValue.vnull)]
    (by decide) (by simp) rfl

end KPQ
